import Mathlib

/-!
Shallow embedding of the Azure Container Apps (ACA) launcher for Dagster Cloud
(`app/aca_launcher.py`), covering the components the verified claims touch:
registry-credential resolution, resource naming, environment-variable and tag
construction, run-worker environment derivation, run termination, tag-based
discovery of code servers, and the readiness-polling loop.

Python strings are modelled as Lean `String`, operating on `String.data`
(`List Char`) so that every operation is structurally recursive and
kernel-evaluable.  Python dicts used for tags are modelled as association
lists built by insert-with-overwrite, which preserves Python dict insertion
and overwrite semantics.  `float` timestamps are modelled as `Rat`, and the
Python `float(s)` conversion is modelled by a partial parser `pyFloat` for
decimal literals (sign, digits, optional fraction, optional exponent); it
returns `none` exactly where `float` raises `ValueError` on such inputs.
-/

namespace AcaAgent

/-- Python truthiness of an optional string: `None` and the empty string are
falsy, every other string is truthy. -/
def pyTruthy (o : Option String) : Bool :=
  !((o.getD "") == "")

/-- Whether one character list begins with another (contiguous match at the
head). -/
def charListBeginsWith : List Char → List Char → Bool
  | [], _ => true
  | _ :: _, [] => false
  | p :: ps, c :: cs => p == c && charListBeginsWith ps cs

/-- Whether `pat` occurs as a contiguous sub-list of the second list; models
the Python substring test `pat in s`. -/
def charListHasSub (pat : List Char) : List Char → Bool
  | [] => pat.isEmpty
  | c :: cs => charListBeginsWith pat (c :: cs) || charListHasSub pat cs

/-- Python substring containment `pat in s` on strings. -/
def strContainsSub (s pat : String) : Bool :=
  charListHasSub pat.data s.data

/-- Whether the string contains a slash, matching Python `'/' in image`. -/
def strHasSlash (s : String) : Bool :=
  s.data.any (fun c => c == '/')

/-- The substring before the first slash, matching Python
`image.split('/')[0]`. -/
def strHost (s : String) : String :=
  String.mk (s.data.takeWhile (fun c => !(c == '/')))

/-- Python `s[:n]` on strings. -/
def pyTruncate (n : Nat) (s : String) : String :=
  String.mk (s.data.take n)

/-- Python `s.lower()` restricted to ASCII case mapping. -/
def pyLower (s : String) : String :=
  String.mk (s.data.map Char.toLower)

/-- Python `s.replace(old, new)` for single characters, specialised to the
underscore-to-hyphen replacement the launcher performs. -/
def pyReplaceUnderscore (s : String) : String :=
  String.mk (s.data.map (fun c => if c == '_' then '-' else c))

/-! ## Registry credential resolution (`_get_registry_credentials`) -/

/-- Container App secret entry (the launcher never creates any; the secrets
list it returns is always empty). -/
structure Secret where
  name : String
  value : String
deriving DecidableEq

/-- Registry credential entry attached to a Container App configuration. -/
structure RegistryCredentials where
  server : String
  identity : String
deriving DecidableEq

/-- Error message raised when an ACR image is used without a configured
managed identity. -/
def acrMissingIdentityMsg : String :=
  "CODE_SERVER_IDENTITY_ID environment variable not set. Managed identity is required for ACR authentication."

/-- Error message raised for AWS ECR images, giving the migration path to
Azure Container Registry. -/
def ecrUnsupportedMsg (server : String) : String :=
  "Code location uses AWS ECR image (" ++ server ++ "). " ++
  "This indicates the code location is configured for Dagster Cloud Serverless mode. " ++
  "For hybrid deployments with Azure Container Apps, please: " ++
  "1. Build and push your code location image to Azure Container Registry (ACR) " ++
  "2. Update the code location in Dagster Cloud to use the ACR image " ++
  "3. Grant the agent managed identity AcrPull role on your ACR"

/-- Error message raised for any other explicit registry host. -/
def unsupportedRegistryMsg (server : String) : String :=
  "Unsupported container registry: " ++ server ++ ". " ++
  "Azure Container Apps hybrid agent only supports Azure Container Registry (ACR). " ++
  "Please push your image to ACR and update your code location configuration."

/-- Embedding of `AcaUserCodeLauncher._get_registry_credentials`: given the
configured managed-identity resource id (`codeServerIdentityId`, which Python
treats as falsy when `None` or empty) and an image reference, return the
secrets and registries lists, or the message of the `ValueError` the method
raises. -/
def getRegistryCredentials (codeServerIdentityId : Option String) (image : String) :
    Except String (List Secret × List RegistryCredentials) :=
  if strHasSlash image then
    let registryServer := strHost image
    if registryServer == "" then
      Except.ok ([], [])
    else if strContainsSub registryServer "azurecr.io" then
      if pyTruthy codeServerIdentityId then
        Except.ok ([], [⟨registryServer, codeServerIdentityId.getD ""⟩])
      else
        Except.error acrMissingIdentityMsg
    else if strContainsSub registryServer "ecr" && strContainsSub registryServer "amazonaws.com" then
      Except.error (ecrUnsupportedMsg registryServer)
    else
      Except.error (unsupportedRegistryMsg registryServer)
  else
    Except.ok ([], [])

/-! ## Resource naming -/

/-- Embedding of the code-server name derivation used identically in
`launch_code_server` and `_start_new_server_spinup`:
`f"dagster-(deployment)-(location)"[:32].lower().replace("_", "-")`. -/
def deriveServerName (deploymentName locationName : String) : String :=
  pyReplaceUnderscore (pyLower (pyTruncate 32 ("dagster-" ++ deploymentName ++ "-" ++ locationName)))

/-- Embedding of the run-worker name derivation used in `launch_run` and
`terminate`: `f"dagster-run-(run_id[:8])".lower().replace("_", "-")`. -/
def deriveRunName (runId : String) : String :=
  pyReplaceUnderscore (pyLower ("dagster-run-" ++ pyTruncate 8 runId))

/-! ## Environment variables -/

/-- Container App environment variable entry. -/
structure EnvironmentVar where
  name : String
  value : String
deriving DecidableEq

/-- Embedding of `AcaUserCodeLauncher._build_environment_variables`: the three
mandatory variables first, then every caller-supplied pair appended in order.
`dagsterCloudUrl` stands for `os.getenv("DAGSTER_CLOUD_URL", "https://dagster.cloud")`,
read once at call time. -/
def buildEnvironmentVariables (dagsterCloudUrl deploymentName locationName : String)
    (customEnv : List (String × String)) : List EnvironmentVar :=
  [⟨"DAGSTER_CLOUD_DEPLOYMENT_NAME", deploymentName⟩,
   ⟨"DAGSTER_CLOUD_CODE_LOCATION_NAME", locationName⟩,
   ⟨"DAGSTER_CLOUD_URL", dagsterCloudUrl⟩]
  ++ customEnv.map (fun kv => ⟨kv.1, kv.2⟩)

/-- Last-write-wins resolution of an environment variable list, the data
model the spec assigns to duplicate names in a merged list. -/
def lastWriteWins (env : List EnvironmentVar) (k : String) : Option String :=
  env.foldl (fun acc v => if v.name == k then some v.value else acc) none

/-- Last value associated to a key in a list of string pairs (the value the
last write would leave in a dict built from the list). -/
def lastValueOf (k : String) (pairs : List (String × String)) : Option String :=
  pairs.foldl (fun acc kv => if kv.1 == k then some kv.2 else acc) none

/-- Embedding of the run-worker environment construction in
`AcaRunLauncher.launch_run`: the run-specific variables first, then every
sibling code-server variable whose name is not the server-only
`DAGSTER_CLOUD_CODE_LOCATION_NAME`. -/
def buildRunWorkerEnv (jobName runId : String) (serverEnv : List EnvironmentVar) :
    List EnvironmentVar :=
  [⟨"DAGSTER_RUN_JOB_NAME", jobName⟩, ⟨"DAGSTER_RUN_ID", runId⟩]
  ++ serverEnv.filter (fun v => !(v.name == "DAGSTER_CLOUD_CODE_LOCATION_NAME"))

/-! ## Run termination (`AcaRunLauncher.terminate`) -/

/-- Embedding of `AcaRunLauncher.terminate`: derive the run-worker app name,
issue the remote delete, and swallow any exception (the method only logs a
warning and returns normally). `remoteDelete` abstracts
`container_apps.begin_delete`; an `Except.error` models a raised exception. -/
def terminateRun (runId : String) (remoteDelete : String → Except String Unit) :
    Except String Unit :=
  match remoteDelete (deriveRunName runId) with
  | Except.ok _ => Except.ok ()
  | Except.error _ => Except.ok ()

/-! ## Tag maps (Python dict literals) -/

/-- Insert with overwrite on an association list: replaces the value in place
when the key is present (as a Python dict does), otherwise appends. -/
def pyDictInsert (m : List (String × String)) (k v : String) : List (String × String) :=
  bif m.any (fun p => p.1 == k) then
    m.map (fun p => bif p.1 == k then (k, v) else p)
  else
    m ++ [(k, v)]

/-- Build a Python dict from a list of key-value pairs inserted in order,
later pairs overwriting earlier ones. -/
def pyDictOfList (pairs : List (String × String)) : List (String × String) :=
  pairs.foldl (fun m kv => pyDictInsert m kv.1 kv.2) []

/-- Embedding of the tag literal in `AcaUserCodeLauncher._start_new_server_spinup`:
the configured required tags spread first, then the mandatory Dagster markers. -/
def spinupServerTags (requiredTags : List (String × String))
    (deploymentName locationName : String) (agentId : Option String)
    (updateTimestamp : String) : List (String × String) :=
  pyDictOfList (requiredTags ++
    [("dagster-deployment", deploymentName),
     ("dagster-location", locationName),
     ("dagster-component", "code-server"),
     ("managed-by", "dagster-cloud-agent"),
     ("dagster-agent-id", agentId.getD "unknown"),
     ("dagster-update-timestamp", updateTimestamp)])

/-- Embedding of the tag literal in `AcaRunLauncher.launch_run` for run-worker
Container Apps. -/
def runWorkerTags (requiredTags : List (String × String))
    (deploymentName locationName runId : String) : List (String × String) :=
  pyDictOfList (requiredTags ++
    [("dagster-deployment", deploymentName),
     ("dagster-location", locationName),
     ("dagster-component", "run-worker"),
     ("dagster-run-id", runId),
     ("managed-by", "dagster-cloud-agent")])

/-! ## Python float parsing for timestamp tags -/

/-- Numeric value of a decimal digit character. -/
def digitVal (c : Char) : Nat := c.toNat - 48

/-- Decimal value of a digit list. -/
def digitsToNat (cs : List Char) : Nat :=
  cs.foldl (fun n c => n * 10 + digitVal c) 0

/-- Split a character list on a separator character. -/
def splitOnCharAux (sep : Char) (acc : List Char) : List Char → List (List Char)
  | [] => [acc.reverse]
  | c :: cs =>
    if c == sep then acc.reverse :: splitOnCharAux sep [] cs
    else splitOnCharAux sep (c :: acc) cs

/-- Split a character list on a separator character, starting a fresh piece. -/
def splitOnChar (sep : Char) (cs : List Char) : List (List Char) :=
  splitOnCharAux sep [] cs

/-- Parse a nonempty all-digit character list. -/
def parseUnsignedNat (cs : List Char) : Option Nat :=
  if cs.isEmpty then none
  else if cs.all Char.isDigit then some (digitsToNat cs)
  else none

/-- Integer power of ten as a rational. -/
def pow10 (e : Int) : Rat :=
  match e with
  | Int.ofNat n => (10 : Rat) ^ n
  | Int.negSucc n => 1 / ((10 : Rat) ^ (n + 1))

/-- Parse an unsigned decimal mantissa: digits, optionally with one decimal
point and at least one digit on one side of it. -/
def parseMantissa (cs : List Char) : Option Rat :=
  match splitOnChar '.' cs with
  | [intPart] => (parseUnsignedNat intPart).map (fun n => (n : Rat))
  | [intPart, fracPart] =>
    if intPart.isEmpty && fracPart.isEmpty then none
    else if intPart.all Char.isDigit && fracPart.all Char.isDigit then
      some ((digitsToNat intPart : Rat) + (digitsToNat fracPart : Rat) / ((10 : Rat) ^ fracPart.length))
    else none
  | _ => none

/-- Parse an optionally signed decimal exponent. -/
def parseExponentPart (cs : List Char) : Option Int :=
  match cs with
  | '+' :: rest => (parseUnsignedNat rest).map (fun n => (n : Int))
  | '-' :: rest => (parseUnsignedNat rest).map (fun n => -(n : Int))
  | _ => (parseUnsignedNat cs).map (fun n => (n : Int))

/-- Model of the Python `float(s)` conversion on the decimal-literal grammar
`sign? digits (. digits?)? (e sign? digits)?` (also `. digits` forms), which
covers every string this system itself writes with `str(float)`.  Returns
`none` where `float` raises `ValueError` on this grammar; special forms such
as `inf`, `nan`, embedded underscores and surrounding whitespace are outside
the modelled grammar. -/
def pyFloat (s : String) : Option Rat :=
  let signAndBody : Rat × List Char :=
    match s.data with
    | '+' :: rest => (1, rest)
    | '-' :: rest => (-1, rest)
    | cs => (1, cs)
  match splitOnChar 'e' (signAndBody.2.map Char.toLower) with
  | [mant] => (parseMantissa mant).map (fun m => signAndBody.1 * m)
  | [mant, ex] =>
    match parseMantissa mant, parseExponentPart ex with
    | some m, some e => some (signAndBody.1 * m * pow10 e)
    | _, _ => none
  | _ => none

/-! ## Discovery (`_list_server_handles`) -/

/-- Remote Container App as seen by the discovery code: a name and its tag
map. -/
structure AcaApp where
  name : String
  tags : List (String × String)
deriving DecidableEq

/-- Handle reconstructed from tags, mirroring the `AcaServerHandle`
named tuple of the source. -/
structure AcaServerHandle where
  app_name : String
  deployment_name : String
  location_name : String
  agent_id : Option String
  update_timestamp : Rat
deriving DecidableEq

/-- Ownership filter applied by `_list_server_handles`: skip apps with no
tags or whose managed-by tag is not the agent ownership marker. -/
def ownedApp (a : AcaApp) : Bool :=
  !a.tags.isEmpty && (a.tags.lookup "managed-by" == some "dagster-cloud-agent")

/-- The update-timestamp tag of an app, if present. -/
def tsTag (a : AcaApp) : Option String :=
  a.tags.lookup "dagster-update-timestamp"

/-- Handle built from one owned app when its timestamp tag is absent, empty,
or parseable: fields default exactly as in the source, with the timestamp
defaulting to `now` (the value of `time.time()`). -/
def handleOfOwnedApp (now : Rat) (a : AcaApp) : AcaServerHandle :=
  { app_name := a.name
    deployment_name := (a.tags.lookup "dagster-deployment").getD "unknown"
    location_name := (a.tags.lookup "dagster-location").getD "unknown"
    agent_id := a.tags.lookup "dagster-agent-id"
    update_timestamp :=
      if pyTruthy (tsTag a) then (pyFloat ((tsTag a).getD "")).getD now else now }

/-- Loop body of `_list_server_handles`: `none` models the `ValueError`
raised by `float()` on a truthy but unparseable timestamp tag, which aborts
the loop. -/
def listHandlesAux (now : Rat) : List AcaApp → Option (List AcaServerHandle)
  | [] => some []
  | a :: rest =>
    if ownedApp a then
      match (if pyTruthy (tsTag a) then pyFloat ((tsTag a).getD "") else some now) with
      | none => none
      | some ts =>
        (listHandlesAux now rest).map (fun hs =>
          { app_name := a.name
            deployment_name := (a.tags.lookup "dagster-deployment").getD "unknown"
            location_name := (a.tags.lookup "dagster-location").getD "unknown"
            agent_id := a.tags.lookup "dagster-agent-id"
            update_timestamp := ts } :: hs)
    else listHandlesAux now rest

/-- Embedding of `AcaUserCodeLauncher._list_server_handles`: build a handle
for each owned app, except that any exception inside the loop (in particular
`float()` on an unparseable timestamp tag) is caught by the surrounding
handler, which logs and returns the empty list. -/
def listServerHandles (now : Rat) (apps : List AcaApp) : List AcaServerHandle :=
  (listHandlesAux now apps).getD []

/-! ## Readiness poller (`_wait_for_new_server_ready`) -/

/-- Observation of one polling attempt: either the status fetch raised, or it
returned a provisioning state, an optional running status, and whether the
subsequent gRPC health probe would succeed. -/
inductive PollStep where
  | getError
  | status (provisioningState : String) (runningStatus : Option String) (probeOk : Bool)
deriving DecidableEq

/-- Outcome of the polling loop, carrying the number of attempts performed:
`ready` models the normal return, `timedOut` the `TimeoutError` raised after
the budget is exhausted.  The source has no failure short-circuit, so there
is no third outcome. -/
inductive PollResult where
  | ready (attemptsUsed : Nat)
  | timedOut (attemptsUsed : Nat)
deriving DecidableEq

/-- Default attempt budget of `_wait_for_new_server_ready`. -/
def defaultMaxAttempts : Nat := 60

/-- Seconds slept between polling attempts. -/
def pollIntervalSeconds : Nat := 5

/-- Whether one observation satisfies the readiness condition of the loop:
provisioning succeeded, running status `Running`, and the health probe
succeeds. -/
def healthyStep (s : PollStep) : Bool :=
  match s with
  | PollStep.getError => false
  | PollStep.status prov running probeOk =>
    prov == "Succeeded" && running == some "Running" && probeOk

/-- Polling loop of `_wait_for_new_server_ready` over a trace of per-attempt
observations: on each attempt, a status-fetch error or an unready status just
advances to the next attempt; a ready status with a successful probe returns
immediately; exhausting the budget times out. -/
def pollAux (trace : Nat → PollStep) (attempt : Nat) : Nat → PollResult
  | 0 => PollResult.timedOut attempt
  | fuel + 1 =>
    match trace attempt with
    | PollStep.getError => pollAux trace (attempt + 1) fuel
    | PollStep.status prov running probeOk =>
      if prov == "Succeeded" && running == some "Running" then
        if probeOk then PollResult.ready (attempt + 1)
        else pollAux trace (attempt + 1) fuel
      else pollAux trace (attempt + 1) fuel

/-- Embedding of `_wait_for_new_server_ready` with an explicit attempt
budget. -/
def pollForReady (maxAttempts : Nat) (trace : Nat → PollStep) : PollResult :=
  pollAux trace 0 maxAttempts

/-- The poller as called by the source, with the default budget. -/
def waitForNewServerReady (trace : Nat → PollStep) : PollResult :=
  pollForReady defaultMaxAttempts trace

/-! ## Helper lemmas: last-write folds -/

/-- Folding a keep-the-last-match step over a list factors through the fold
with empty initial value: the initial value only survives when the list
produces no match. -/
theorem foldl_choice {α β : Type} (p : α → Bool) (g : α → β) :
    ∀ (l : List α) (init : Option β),
      l.foldl (fun acc x => if p x then some (g x) else acc) init
        = Option.or (l.foldl (fun acc x => if p x then some (g x) else acc) none) init := by
  intro l
  induction l with
  | nil => intro init; simp [Option.or]
  | cons x xs ih =>
    intro init
    by_cases h : p x = true
    · simp only [List.foldl_cons, h, if_true]
      rw [ih (some (g x))]
      cases xs.foldl (fun acc x => if p x then some (g x) else acc) none <;> simp [Option.or]
    · have h' : p x = false := by simpa using h
      simp only [List.foldl_cons, h', if_false, Bool.false_eq_true]
      rw [ih init]

/-- Last-write resolution distributes over list append, preferring the later
segment. -/
theorem lastWriteWins_append (e₁ e₂ : List EnvironmentVar) (k : String) :
    lastWriteWins (e₁ ++ e₂) k = Option.or (lastWriteWins e₂ k) (lastWriteWins e₁ k) := by
  unfold lastWriteWins
  rw [List.foldl_append]
  exact foldl_choice (fun v => v.name == k) (fun v => v.value) e₂ _

/-- Last-write resolution over the caller-supplied pairs after conversion to
environment variables agrees with the last value of the key in the pairs. -/
theorem lastWriteWins_map_mk (custom : List (String × String)) (k : String) :
    lastWriteWins (custom.map (fun kv => EnvironmentVar.mk kv.1 kv.2)) k = lastValueOf k custom := by
  unfold lastWriteWins lastValueOf
  rw [List.foldl_map]

/-- Last value of a key distributes over list append, preferring the later
segment. -/
theorem lastValueOf_append (p₁ p₂ : List (String × String)) (k : String) :
    lastValueOf k (p₁ ++ p₂) = Option.or (lastValueOf k p₂) (lastValueOf k p₁) := by
  unfold lastValueOf
  rw [List.foldl_append]
  exact foldl_choice (fun kv => kv.1 == k) (fun kv => kv.2) p₂ _

/-! ## Helper lemmas: dict lookups -/

/-- Lookup distributes over append, preferring the earlier segment. -/
theorem lookup_append_or {β : Type} (a : String) (l₁ l₂ : List (String × β)) :
    (l₁ ++ l₂).lookup a = Option.or (l₁.lookup a) (l₂.lookup a) := by
  induction l₁ with
  | nil => simp [Option.none_or]
  | cons p ps ih =>
    obtain ⟨pk, pv⟩ := p
    by_cases h : a = pk
    · subst h
      simp [List.lookup_cons]
    · have h1 : (a == pk) = false := beq_eq_false_iff_ne.mpr h
      simp [List.lookup_cons, h1, ih]

/-- A list with no pair keyed by `k` looks up `k` to `none`. -/
theorem lookup_eq_none_of_any_false (k : String) :
    ∀ m : List (String × String), m.any (fun p => p.1 == k) = false → m.lookup k = none := by
  intro m
  induction m with
  | nil => intro _; rfl
  | cons p ps ih =>
    intro h
    obtain ⟨pk, pv⟩ := p
    rw [List.any_cons] at h
    rcases Bool.or_eq_false_iff.mp h with ⟨h1, h2⟩
    have h1' : (k == pk) = false := by
      refine beq_eq_false_iff_ne.mpr (fun hkpk => ?_)
      subst hkpk
      simp at h1
    rw [List.lookup_cons, h1']
    exact ih h2

/-- Overwriting every pair keyed `k` with value `v` makes lookup of `k`
return `v`, provided some pair has key `k`. -/
theorem lookup_map_overwrite_self (k v : String) :
    ∀ m : List (String × String), m.any (fun p => p.1 == k) = true →
      (m.map (fun p => bif p.1 == k then (k, v) else p)).lookup k = some v := by
  intro m
  induction m with
  | nil => intro h; simp at h
  | cons p ps ih =>
    intro h
    obtain ⟨pk, pv⟩ := p
    by_cases hp : pk = k
    · subst hp
      simp [List.lookup_cons]
    · have hp1 : (pk == k) = false := beq_eq_false_iff_ne.mpr hp
      have hp2 : (k == pk) = false := beq_eq_false_iff_ne.mpr (Ne.symm hp)
      rw [List.any_cons] at h
      simp only [hp1, Bool.false_or] at h
      simp only [List.map_cons, hp1, cond_false]
      rw [List.lookup_cons, hp2]
      exact ih h

/-- Overwriting pairs keyed `k` leaves lookups of other keys unchanged. -/
theorem lookup_map_overwrite_ne (k v k' : String) (hne : k' ≠ k) :
    ∀ m : List (String × String),
      (m.map (fun p => bif p.1 == k then (k, v) else p)).lookup k' = m.lookup k' := by
  intro m
  induction m with
  | nil => rfl
  | cons p ps ih =>
    obtain ⟨pk, pv⟩ := p
    have hk : (k' == k) = false := beq_eq_false_iff_ne.mpr hne
    by_cases hp : pk = k
    · subst hp
      simp only [List.map_cons, beq_self_eq_true, cond_true]
      rw [List.lookup_cons, List.lookup_cons, hk]
      simpa using ih
    · have hp1 : (pk == k) = false := beq_eq_false_iff_ne.mpr hp
      simp only [List.map_cons, hp1, cond_false]
      rw [List.lookup_cons, List.lookup_cons, ih]

/-- Dict insert-with-overwrite makes the inserted key look up to the new
value. -/
theorem lookup_pyDictInsert_self (m : List (String × String)) (k v : String) :
    (pyDictInsert m k v).lookup k = some v := by
  unfold pyDictInsert
  cases h : m.any (fun p => p.1 == k) with
  | true =>
    simp only [cond_true]
    exact lookup_map_overwrite_self k v m h
  | false =>
    simp only [cond_false]
    rw [lookup_append_or, lookup_eq_none_of_any_false k m h]
    simp [List.lookup_cons, Option.none_or]

/-- Dict insert-with-overwrite leaves other keys unchanged. -/
theorem lookup_pyDictInsert_ne (m : List (String × String)) (k v k' : String) (hne : k' ≠ k) :
    (pyDictInsert m k v).lookup k' = m.lookup k' := by
  unfold pyDictInsert
  cases h : m.any (fun p => p.1 == k) with
  | true =>
    simp only [cond_true]
    exact lookup_map_overwrite_ne k v k' hne m
  | false =>
    simp only [cond_false]
    rw [lookup_append_or]
    have hk : (k' == k) = false := beq_eq_false_iff_ne.mpr hne
    simp [List.lookup_cons, hk, Option.or_none]

/-- Looking up a key in a dict built by inserting `pairs` over `m` returns
the last value of the key among `pairs`, falling back to `m`. -/
theorem lookup_foldl_insert (k : String) :
    ∀ (pairs m : List (String × String)),
      (pairs.foldl (fun acc kv => pyDictInsert acc kv.1 kv.2) m).lookup k
        = Option.or (lastValueOf k pairs) (m.lookup k) := by
  intro pairs
  induction pairs with
  | nil => intro m; simp [lastValueOf, Option.none_or]
  | cons kv ps ih =>
    intro m
    obtain ⟨a, b⟩ := kv
    by_cases ha : a = k
    · subst ha
      rw [List.foldl_cons, ih (pyDictInsert m a b)]
      rw [lookup_pyDictInsert_self]
      have hl : lastValueOf a ((a, b) :: ps) = Option.or (lastValueOf a ps) (some b) := by
        unfold lastValueOf
        simp only [List.foldl_cons, beq_self_eq_true, if_true]
        exact foldl_choice (fun kv => kv.1 == a) (fun kv => kv.2) ps (some b)
      rw [hl]
      cases lastValueOf a ps <;> rfl
    · have ha1 : (a == k) = false := beq_eq_false_iff_ne.mpr ha
      rw [List.foldl_cons, ih (pyDictInsert m a b)]
      rw [lookup_pyDictInsert_ne m a b k (Ne.symm ha)]
      have hl : lastValueOf k ((a, b) :: ps) = lastValueOf k ps := by
        unfold lastValueOf
        simp [List.foldl_cons, ha1, ha]
      rw [hl]

/-- Looking up a key in a dict literal returns the last value written for
that key. -/
theorem lookup_pyDictOfList (pairs : List (String × String)) (k : String) :
    (pyDictOfList pairs).lookup k = lastValueOf k pairs := by
  unfold pyDictOfList
  rw [lookup_foldl_insert]
  exact Option.or_none

/-! ## Helper lemmas: readiness poller -/

/-- Whether an observation reports a terminal remote provisioning failure. -/
def terminalFailureStep (s : PollStep) : Bool :=
  match s with
  | PollStep.getError => false
  | PollStep.status prov _ _ => prov == "Failed"

/-- An unhealthy attempt advances the loop by one attempt. -/
theorem pollAux_skip (trace : Nat → PollStep) (a fuel : Nat)
    (h : healthyStep (trace a) = false) :
    pollAux trace a (fuel + 1) = pollAux trace (a + 1) fuel := by
  cases ht : trace a with
  | getError => simp [pollAux, ht]
  | status prov running probeOk =>
    rw [ht] at h
    simp only [healthyStep] at h
    by_cases hc : (prov == "Succeeded" && running == some "Running") = true
    · have hp : probeOk = false := by
        rcases Bool.and_eq_false_iff.mp h with h1 | h1
        · exact absurd hc (by simp [h1])
        · exact h1
      simp [pollAux, ht, hc, hp]
    · have hc' : (prov == "Succeeded" && running == some "Running") = false := by
        simpa using hc
      simp [pollAux, ht, hc']

/-- A healthy attempt returns ready with that attempt counted. -/
theorem pollAux_hit (trace : Nat → PollStep) (a fuel : Nat)
    (h : healthyStep (trace a) = true) :
    pollAux trace a (fuel + 1) = PollResult.ready (a + 1) := by
  cases ht : trace a with
  | getError =>
    rw [ht] at h
    simp [healthyStep] at h
  | status prov running probeOk =>
    rw [ht] at h
    simp only [healthyStep] at h
    rcases Bool.and_eq_true_iff.mp h with ⟨hc, hp⟩
    simp [pollAux, ht, hc, hp]

/-- If the first healthy attempt has index `k` within the budget, the loop
returns ready after `k + 1` attempts (counting from start attempt `a`). -/
theorem pollAux_first_healthy (trace : Nat → PollStep) :
    ∀ (k fuel a : Nat), k < fuel →
      (∀ j, j < k → healthyStep (trace (a + j)) = false) →
      healthyStep (trace (a + k)) = true →
      pollAux trace a fuel = PollResult.ready (a + k + 1) := by
  intro k
  induction k with
  | zero =>
    intro fuel a hk hbefore hhit
    cases fuel with
    | zero => omega
    | succ f =>
      have := pollAux_hit trace a f (by simpa using hhit)
      simpa using this
  | succ k ih =>
    intro fuel a hk hbefore hhit
    cases fuel with
    | zero => omega
    | succ f =>
      have h0 : healthyStep (trace a) = false := by
        have := hbefore 0 (Nat.succ_pos k)
        simpa using this
      rw [pollAux_skip trace a f h0]
      have hstep := ih f (a + 1) (by omega)
        (fun j hj => by
          have := hbefore (j + 1) (by omega)
          have harr : a + 1 + j = a + (j + 1) := by omega
          rw [harr]
          exact this)
        (by
          have harr : a + 1 + k = a + (k + 1) := by omega
          rw [harr]
          exact hhit)
      rw [hstep]
      congr 1
      omega

/-- If no attempt within the budget is healthy, the loop exhausts the budget
and times out. -/
theorem pollAux_timeout (trace : Nat → PollStep) :
    ∀ (fuel a : Nat), (∀ j, j < fuel → healthyStep (trace (a + j)) = false) →
      pollAux trace a fuel = PollResult.timedOut (a + fuel) := by
  intro fuel
  induction fuel with
  | zero => intro a _; simp [pollAux]
  | succ f ih =>
    intro a h
    have h0 : healthyStep (trace a) = false := by
      have := h 0 (Nat.succ_pos f)
      simpa using this
    rw [pollAux_skip trace a f h0]
    have := ih (a + 1) (fun j hj => by
      have := h (j + 1) (by omega)
      have harr : a + 1 + j = a + (j + 1) := by omega
      rw [harr]
      exact this)
    rw [this]
    congr 1
    omega

/-- A terminal provisioning failure is never a healthy observation. -/
theorem healthyStep_of_terminalFailure (s : PollStep)
    (h : terminalFailureStep s = true) : healthyStep s = false := by
  cases s with
  | getError => rfl
  | status prov running probeOk =>
    simp only [terminalFailureStep] at h
    have hprov : prov = "Failed" := by simpa using h
    subst hprov
    simp [healthyStep]


/-! ## Helper lemmas: discovery -/

/-- When every owned app in the listing has a timestamp tag that is absent,
empty, or parseable, the discovery loop completes and produces exactly one
handle per owned app, in listing order. -/
theorem listHandlesAux_total (now : Rat) :
    ∀ apps : List AcaApp,
      (∀ a ∈ apps, ownedApp a = true → pyTruthy (tsTag a) = true →
        (pyFloat ((tsTag a).getD "")).isSome = true) →
      listHandlesAux now apps = some ((apps.filter ownedApp).map (handleOfOwnedApp now)) := by
  intro apps
  induction apps with
  | nil => intro _; rfl
  | cons a rest ih =>
    intro h
    have hrest := ih (fun b hb => h b (List.mem_cons_of_mem a hb))
    cases howned : ownedApp a with
    | false =>
      rw [listHandlesAux, howned]
      simp only [Bool.false_eq_true, if_false]
      rw [hrest, List.filter_cons_of_neg (by simp [howned])]
    | true =>
      rw [listHandlesAux, howned]
      simp only [if_true]
      cases htruthy : pyTruthy (tsTag a) with
      | false =>
        simp only [htruthy, Bool.false_eq_true, if_false]
        rw [hrest]
        rw [List.filter_cons_of_pos (by simp [howned]), List.map_cons]
        simp [handleOfOwnedApp, htruthy]
      | true =>
        have hsome := h a (List.mem_cons_self a rest) howned htruthy
        rcases Option.isSome_iff_exists.mp hsome with ⟨v, hv⟩
        simp only [htruthy, if_true, hv]
        rw [hrest]
        rw [List.filter_cons_of_pos (by simp [howned]), List.map_cons]
        simp [handleOfOwnedApp, htruthy, hv]


/-! ## Claim theorems -/

/-- Claim C1, counterexample: the resolver does not return NoAuthNeeded for
docker.io images; it raises the generic unsupported-registry error. -/
theorem registry_docker_io_not_noauth :
    getRegistryCredentials (some "mi") "docker.io/library/ubuntu:latest" =
      Except.error (unsupportedRegistryMsg "docker.io") ∧
    getRegistryCredentials (some "mi") "docker.io/library/ubuntu:latest" ≠
      Except.ok ([], []) := by
  refine ⟨rfl, fun h => ?_⟩
  rw [show getRegistryCredentials (some "mi") "docker.io/library/ubuntu:latest" =
      Except.error (unsupportedRegistryMsg "docker.io") from rfl] at h
  exact Except.noConfusion h

/-- Claim C1, amended: registry credential resolution is a pure case analysis
on the image reference string: with a configured (truthy) managed identity,
every image whose registry host contains the ACR suffix resolves to
managed-identity authentication for that host; docker.io images fail as
Unsupported with the generic unsupported-registry message (not NoAuthNeeded);
the ECR host fails as Unsupported with the migration-guidance message; and
every image containing no slash returns empty secrets and registries. -/
theorem registry_credentials_resolution (ident : String) :
    (∀ image : String, strHasSlash image = true →
        strContainsSub (strHost image) "azurecr.io" = true → ident ≠ "" →
        getRegistryCredentials (some ident) image =
          Except.ok ([], [⟨strHost image, ident⟩])) ∧
    getRegistryCredentials (some ident) "docker.io/library/ubuntu:latest" =
      Except.error (unsupportedRegistryMsg "docker.io") ∧
    getRegistryCredentials (some ident) "123.dkr.ecr.us-east-1.amazonaws.com/x" =
      Except.error (ecrUnsupportedMsg "123.dkr.ecr.us-east-1.amazonaws.com") ∧
    (∀ image : String, strHasSlash image = false →
        getRegistryCredentials (some ident) image = Except.ok ([], [])) := by
  refine ⟨?_, rfl, rfl, ?_⟩
  · intro image h1 h2 hid
    have hne : (strHost image == "") = false := by
      cases hq : strHost image == "" with
      | false => rfl
      | true =>
        have he : strHost image = "" := by simpa using hq
        rw [he] at h2
        exact absurd h2 (by decide)
    have hpt : pyTruthy (some ident) = true := by
      simp [pyTruthy, hid]
    simp [getRegistryCredentials, h1, hne, h2, hpt]
  · intro image h0
    simp [getRegistryCredentials, h0]

/-- Claim C1, witness: the amended resolution theorem applied to a concrete
ACR image and a concrete registry-less image. -/
theorem registry_credentials_resolution_witness :
    getRegistryCredentials (some "mi") "myacr.azurecr.io/app:v1" =
      Except.ok ([], [⟨strHost "myacr.azurecr.io/app:v1", "mi"⟩]) ∧
    getRegistryCredentials (some "mi") "ubuntu:latest" = Except.ok ([], []) :=
  ⟨(registry_credentials_resolution "mi").1 "myacr.azurecr.io/app:v1"
      (by decide) (by decide) (by decide),
   (registry_credentials_resolution "mi").2.2.2 "ubuntu:latest" (by decide)⟩

/-- Claim C5: for every image whose registry host contains the ACR suffix,
resolution with no configured managed identity fails with the configuration
error message and never returns an unauthenticated configuration. -/
theorem acr_without_identity_errors (image : String)
    (h1 : strHasSlash image = true)
    (h2 : strContainsSub (strHost image) "azurecr.io" = true) :
    getRegistryCredentials none image = Except.error acrMissingIdentityMsg := by
  have hne : (strHost image == "") = false := by
    cases hq : strHost image == "" with
    | false => rfl
    | true =>
      have he : strHost image = "" := by simpa using hq
      rw [he] at h2
      exact absurd h2 (by decide)
  have hpt : pyTruthy (none : Option String) = false := rfl
  simp [getRegistryCredentials, h1, hne, h2, hpt]

/-- Claim C5, witness: the configuration error at a concrete ACR image. -/
theorem acr_without_identity_errors_witness :
    getRegistryCredentials none "myacr.azurecr.io/app:v1" =
      Except.error acrMissingIdentityMsg :=
  acr_without_identity_errors "myacr.azurecr.io/app:v1" (by decide) (by decide)

/-- Claim C7: the derived server name only lowercases and replaces
underscores, so a dot in the location name passes through to the derived
name, contradicting the documented lowercase-alphanumeric-and-hyphen
sanitisation; determinism and the 32-character bound do hold at this
input. -/
theorem derive_server_name_unsanitized_dot :
    deriveServerName "prod" "my.loc" = "dagster-prod-my.loc" ∧
    (deriveServerName "prod" "my.loc").data.all
      (fun c => c.isLower || c.isDigit || c == '-') = false ∧
    (deriveServerName "prod" "my.loc").data.length ≤ 32 := by
  refine ⟨by decide, by decide, by decide⟩

/-- Claim C10: run termination never fails: whatever the remote delete call
does, terminate swallows the exception and returns normally. -/
theorem terminate_run_never_fails (runId : String)
    (remoteDelete : String → Except String Unit) :
    terminateRun runId remoteDelete = Except.ok () := by
  unfold terminateRun
  cases remoteDelete (deriveRunName runId) <;> rfl

/-- Claim C9: the derived run-worker environment never contains the
server-only location-name variable, contains every other sibling variable,
and always contains the run id and job name variables. -/
theorem run_worker_env_derivation (jobName runId : String)
    (serverEnv : List EnvironmentVar) :
    (∀ v ∈ buildRunWorkerEnv jobName runId serverEnv,
        v.name ≠ "DAGSTER_CLOUD_CODE_LOCATION_NAME") ∧
    (∀ v ∈ serverEnv, v.name ≠ "DAGSTER_CLOUD_CODE_LOCATION_NAME" →
        v ∈ buildRunWorkerEnv jobName runId serverEnv) ∧
    EnvironmentVar.mk "DAGSTER_RUN_ID" runId ∈ buildRunWorkerEnv jobName runId serverEnv ∧
    EnvironmentVar.mk "DAGSTER_RUN_JOB_NAME" jobName ∈ buildRunWorkerEnv jobName runId serverEnv := by
  refine ⟨?_, ?_, ?_, ?_⟩
  · intro v hv
    unfold buildRunWorkerEnv at hv
    rcases List.mem_append.mp hv with h | h
    · rcases List.mem_cons.mp h with h1 | h1
      · subst h1; simp
      · rcases List.mem_cons.mp h1 with h2 | h2
        · subst h2; simp
        · simp at h2
    · rcases List.mem_filter.mp h with ⟨-, hcond⟩
      simpa using hcond
  · intro v hv hname
    unfold buildRunWorkerEnv
    refine List.mem_append.mpr (Or.inr ?_)
    exact List.mem_filter.mpr ⟨hv, by simpa using hname⟩
  · simp [buildRunWorkerEnv]
  · simp [buildRunWorkerEnv]

/-- Claim C9, witness: derivation theorem applied to a concrete sibling
environment containing both the server-only variable and an ordinary one. -/
theorem run_worker_env_derivation_witness :
    EnvironmentVar.mk "API_KEY" "k" ∈ buildRunWorkerEnv "job" "run1"
      [EnvironmentVar.mk "DAGSTER_CLOUD_CODE_LOCATION_NAME" "loc",
       EnvironmentVar.mk "API_KEY" "k"] ∧
    EnvironmentVar.mk "DAGSTER_RUN_ID" "run1" ∈ buildRunWorkerEnv "job" "run1"
      [EnvironmentVar.mk "DAGSTER_CLOUD_CODE_LOCATION_NAME" "loc",
       EnvironmentVar.mk "API_KEY" "k"] :=
  ⟨(run_worker_env_derivation "job" "run1"
      [EnvironmentVar.mk "DAGSTER_CLOUD_CODE_LOCATION_NAME" "loc",
       EnvironmentVar.mk "API_KEY" "k"]).2.1
      (EnvironmentVar.mk "API_KEY" "k") (by decide) (by decide),
   (run_worker_env_derivation "job" "run1"
      [EnvironmentVar.mk "DAGSTER_CLOUD_CODE_LOCATION_NAME" "loc",
       EnvironmentVar.mk "API_KEY" "k"]).2.2.1⟩

/-- Claim C2, counterexample: because caller-supplied entries are appended
after the mandatory variables, a caller key colliding with the mandatory
deployment-name key wins under last-write-wins resolution. -/
theorem build_env_caller_override_wins :
    lastWriteWins (buildEnvironmentVariables "https://dagster.cloud" "prod" "loc1"
      [("DAGSTER_CLOUD_DEPLOYMENT_NAME", "evil")]) "DAGSTER_CLOUD_DEPLOYMENT_NAME" =
      some "evil" ∧ ("evil" : String) ≠ "prod" := by
  refine ⟨by decide, by decide⟩

/-- Claim C2, amended: the three mandatory variables are emitted first with
their mandatory values and caller-supplied pairs are appended after, so
under last-write-wins resolution each mandatory value survives exactly when
no caller key collides with it, while the last caller value wins for every
key the caller supplies, including colliding ones. -/
theorem build_env_last_write_resolution (url d l : String)
    (custom : List (String × String)) :
    (lastValueOf "DAGSTER_CLOUD_DEPLOYMENT_NAME" custom = none →
      lastWriteWins (buildEnvironmentVariables url d l custom)
        "DAGSTER_CLOUD_DEPLOYMENT_NAME" = some d) ∧
    (lastValueOf "DAGSTER_CLOUD_CODE_LOCATION_NAME" custom = none →
      lastWriteWins (buildEnvironmentVariables url d l custom)
        "DAGSTER_CLOUD_CODE_LOCATION_NAME" = some l) ∧
    (lastValueOf "DAGSTER_CLOUD_URL" custom = none →
      lastWriteWins (buildEnvironmentVariables url d l custom)
        "DAGSTER_CLOUD_URL" = some url) ∧
    (∀ k v, lastValueOf k custom = some v →
      lastWriteWins (buildEnvironmentVariables url d l custom) k = some v) := by
  have key : ∀ k : String, lastWriteWins (buildEnvironmentVariables url d l custom) k
      = Option.or (lastValueOf k custom)
          (lastWriteWins [EnvironmentVar.mk "DAGSTER_CLOUD_DEPLOYMENT_NAME" d,
            EnvironmentVar.mk "DAGSTER_CLOUD_CODE_LOCATION_NAME" l,
            EnvironmentVar.mk "DAGSTER_CLOUD_URL" url] k) := by
    intro k
    unfold buildEnvironmentVariables
    rw [lastWriteWins_append, lastWriteWins_map_mk]
  refine ⟨?_, ?_, ?_, ?_⟩
  · intro h
    rw [key, h, Option.none_or]
    simp [lastWriteWins]
  · intro h
    rw [key, h, Option.none_or]
    simp [lastWriteWins]
  · intro h
    rw [key, h, Option.none_or]
    simp [lastWriteWins]
  · intro k v h
    rw [key, h]
    rfl

/-- Claim C2, witness: resolution theorem applied to a concrete caller map
with no colliding keys. -/
theorem build_env_last_write_resolution_witness :
    lastWriteWins (buildEnvironmentVariables "https://dagster.cloud" "prod" "loc1"
      [("MY_VAR", "x")]) "DAGSTER_CLOUD_DEPLOYMENT_NAME" = some "prod" :=
  (build_env_last_write_resolution "https://dagster.cloud" "prod" "loc1"
    [("MY_VAR", "x")]).1 (by decide)

/-- Claim C6: for every configured extra tag map, the spinup code-server tag
map and the run-worker tag map always carry the ownership marker, the
component-kind marker, the deployment name and the location name with their
mandatory values, because the mandatory pairs are written after the extras. -/
theorem ownership_tags_mandatory_values (requiredTags : List (String × String))
    (d l runId ts : String) (agentId : Option String) :
    (spinupServerTags requiredTags d l agentId ts).lookup "managed-by" =
      some "dagster-cloud-agent" ∧
    (spinupServerTags requiredTags d l agentId ts).lookup "dagster-component" =
      some "code-server" ∧
    (spinupServerTags requiredTags d l agentId ts).lookup "dagster-deployment" = some d ∧
    (spinupServerTags requiredTags d l agentId ts).lookup "dagster-location" = some l ∧
    (runWorkerTags requiredTags d l runId).lookup "managed-by" =
      some "dagster-cloud-agent" ∧
    (runWorkerTags requiredTags d l runId).lookup "dagster-component" =
      some "run-worker" ∧
    (runWorkerTags requiredTags d l runId).lookup "dagster-deployment" = some d ∧
    (runWorkerTags requiredTags d l runId).lookup "dagster-location" = some l := by
  have hs : ∀ k : String, (spinupServerTags requiredTags d l agentId ts).lookup k
      = Option.or (lastValueOf k
          [("dagster-deployment", d), ("dagster-location", l),
           ("dagster-component", "code-server"), ("managed-by", "dagster-cloud-agent"),
           ("dagster-agent-id", agentId.getD "unknown"), ("dagster-update-timestamp", ts)])
          (lastValueOf k requiredTags) := by
    intro k
    unfold spinupServerTags
    rw [lookup_pyDictOfList, lastValueOf_append]
  have hr : ∀ k : String, (runWorkerTags requiredTags d l runId).lookup k
      = Option.or (lastValueOf k
          [("dagster-deployment", d), ("dagster-location", l),
           ("dagster-component", "run-worker"), ("dagster-run-id", runId),
           ("managed-by", "dagster-cloud-agent")])
          (lastValueOf k requiredTags) := by
    intro k
    unfold runWorkerTags
    rw [lookup_pyDictOfList, lastValueOf_append]
  refine ⟨?_, ?_, ?_, ?_, ?_, ?_, ?_, ?_⟩
  · rw [hs]; simp [lastValueOf, Option.or]
  · rw [hs]; simp [lastValueOf, Option.or]
  · rw [hs]; simp [lastValueOf, Option.or]
  · rw [hs]; simp [lastValueOf, Option.or]
  · rw [hr]; simp [lastValueOf, Option.or]
  · rw [hr]; simp [lastValueOf, Option.or]
  · rw [hr]; simp [lastValueOf, Option.or]
  · rw [hr]; simp [lastValueOf, Option.or]


/-- Claim C3, counterexample: one owned resource with a present but
unparseable timestamp tag makes the whole discovery call return the empty
list, dropping even the other owned resource (which is owned, as the second
conjunct shows). -/
theorem discovery_unparseable_timestamp_drops_all :
    listServerHandles 0
      [AcaApp.mk "app1"
        [("managed-by", "dagster-cloud-agent"), ("dagster-update-timestamp", "abc")],
       AcaApp.mk "app2" [("managed-by", "dagster-cloud-agent")]] = [] ∧
    ownedApp (AcaApp.mk "app2" [("managed-by", "dagster-cloud-agent")]) = true := by
  refine ⟨by decide, by decide⟩

/-- Claim C3, amended: when every owned resource in the listing has a
timestamp tag that is absent, empty, or parseable as a float, discovery
returns exactly one handle per owned resource in listing order, and a
resource whose tag is absent or empty gets its timestamp defaulted to the
current time; but a present unparseable tag aborts the whole listing to the
empty list (the logged-error path), as the counterexample shows. -/
theorem discovery_defaults_missing_timestamp (now : Rat) (apps : List AcaApp)
    (h : ∀ a ∈ apps, ownedApp a = true → pyTruthy (tsTag a) = true →
      (pyFloat ((tsTag a).getD "")).isSome = true) :
    listServerHandles now apps = (apps.filter ownedApp).map (handleOfOwnedApp now) ∧
    (∀ a : AcaApp, pyTruthy (tsTag a) = false →
      (handleOfOwnedApp now a).update_timestamp = now) := by
  constructor
  · unfold listServerHandles
    rw [listHandlesAux_total now apps h]
    rfl
  · intro a ha
    simp [handleOfOwnedApp, ha]

/-- Claim C3, witness: discovery theorem applied to a concrete listing with
one owned resource lacking the timestamp tag and one foreign resource. -/
theorem discovery_defaults_missing_timestamp_witness :
    listServerHandles 0
      [AcaApp.mk "srv" [("managed-by", "dagster-cloud-agent"), ("dagster-deployment", "prod")],
       AcaApp.mk "other" [("team", "x")]] =
    (([AcaApp.mk "srv" [("managed-by", "dagster-cloud-agent"), ("dagster-deployment", "prod")],
       AcaApp.mk "other" [("team", "x")]].filter ownedApp).map (handleOfOwnedApp 0)) :=
  (discovery_defaults_missing_timestamp 0
    [AcaApp.mk "srv" [("managed-by", "dagster-cloud-agent"), ("dagster-deployment", "prod")],
     AcaApp.mk "other" [("team", "x")]] (by decide)).1

/-- Claim C4, counterexample: a remote that reports the terminal provisioning
state Failed on every attempt does not short-circuit: the poller runs the
full 5-attempt budget and times out (the result type of the loop has no
failure outcome at all). -/
theorem poller_no_failed_short_circuit :
    pollForReady 5 (fun _ => PollStep.status "Failed" none false) =
      PollResult.timedOut 5 := by
  decide

/-- Claim C4, amended: the polling loop does not distinguish terminal
provisioning failures: for every remote whose provisioning state is the
terminal Failed on every attempt within the budget, the poller exhausts the
full attempt budget and reports timeout instead of short-circuiting. -/
theorem poller_terminal_failure_exhausts_budget (n : Nat) (trace : Nat → PollStep)
    (h : ∀ i, i < n → terminalFailureStep (trace i) = true) :
    pollForReady n trace = PollResult.timedOut n := by
  unfold pollForReady
  have ht := pollAux_timeout trace n 0 (fun j hj => by
    simpa using healthyStep_of_terminalFailure (trace j) (h j (by simpa using hj)))
  simpa using ht

/-- Claim C4, witness: the exhaustion theorem applied to a concrete
always-failed remote with a 3-attempt budget. -/
theorem poller_terminal_failure_exhausts_budget_witness :
    pollForReady 3 (fun _ => PollStep.status "Failed" (some "Stopped") false) =
      PollResult.timedOut 3 :=
  poller_terminal_failure_exhausts_budget 3
    (fun _ => PollStep.status "Failed" (some "Stopped") false) (by decide)

/-- Claim C8: the poller performs exactly as many attempts as needed: if the
first healthy observation (provisioning succeeded, running, probe success)
of one trace has index k within an n-attempt budget, the poller returns
ready after exactly k + 1 attempts; a trace with no healthy observation in
the budget times out after exactly n attempts; and the default budget is 60
attempts at 5-second spacing. -/
theorem poller_exact_attempts (n k : Nat) (traceHit traceMiss : Nat → PollStep)
    (hk : k < n)
    (hbefore : ∀ j, j < k → healthyStep (traceHit j) = false)
    (hhit : healthyStep (traceHit k) = true)
    (hmiss : ∀ j, j < n → healthyStep (traceMiss j) = false) :
    pollForReady n traceHit = PollResult.ready (k + 1) ∧
    pollForReady n traceMiss = PollResult.timedOut n ∧
    defaultMaxAttempts = 60 ∧ pollIntervalSeconds = 5 := by
  refine ⟨?_, ?_, rfl, rfl⟩
  · unfold pollForReady
    have hr := pollAux_first_healthy traceHit k n 0 hk
      (fun j hj => by simpa using hbefore j hj) (by simpa using hhit)
    simpa using hr
  · unfold pollForReady
    have ht := pollAux_timeout traceMiss n 0 (fun j hj => by simpa using hmiss j hj)
    simpa using ht

/-- Claim C8, witness: exactness theorem applied to a concrete trace healthy
first on attempt 3 of a 5-attempt budget, and a concrete never-healthy
trace. -/
theorem poller_exact_attempts_witness :
    pollForReady 5 (fun i =>
      if i == 2 then PollStep.status "Succeeded" (some "Running") true
      else PollStep.status "InProgress" none false) = PollResult.ready 3 ∧
    pollForReady 5 (fun _ => PollStep.status "Succeeded" (some "Activating") false) =
      PollResult.timedOut 5 := by
  have h := poller_exact_attempts 5 2
    (fun i => if i == 2 then PollStep.status "Succeeded" (some "Running") true
      else PollStep.status "InProgress" none false)
    (fun _ => PollStep.status "Succeeded" (some "Activating") false)
    (by decide) (by decide) (by decide) (by decide)
  exact ⟨h.1, h.2.1⟩


end AcaAgent
